import Mathlib

/-!
Shallow embedding of `src/policy/policy.go` (package `policy` of snapd).

The Go code manipulates a POSIX filesystem through `os` / `path/filepath`
primitives.  We model the filesystem as an association list from absolute
paths (lists of components, `[]` being the root) to nodes.  A node records
what `os.Lstat` would report for the path: a regular file with its byte
content, a directory, a symbolic link, a device, or `badMeta` — a path that
is listed by its parent directory but whose metadata cannot be read
(permission problems, vanish races), i.e. the case in which `os.Lstat`
itself returns an error.

Go functions mutate the ambient world and return an `error`; the embedding
threads the world explicitly: each operation returns the final filesystem
together with `Option PolicyError` (`none` = nil error).  Errors are an
inductive datum with one constructor per `fmt.Errorf` site of the source,
carrying the same values that the corresponding format string interpolates.

I/O primitives that the pure model cannot make fail (reading an existing
regular file, copying bytes, syncing, closing) always succeed here, so the
corresponding error constructors are present but unreachable; likewise
`filepath.Glob`, which the source itself documents as never failing for the
well-formed patterns it is given, is modelled as total.
-/

namespace Policy

/-- A filesystem path, as its list of components; `[]` is the root. -/
abbrev Path := List String

/-- What `os.Lstat` reports for a path (without following a final symlink). -/
inductive Node where
  | regular (content : String)
  | directory
  | symlink (target : String)
  | device
  | badMeta
deriving DecidableEq, Repr, Inhabited

/-- True exactly when `os.FileInfo.Mode().IsRegular()` would be true. -/
def Node.isRegular : Node → Bool
  | Node.regular _ => true
  | _ => false

/-- The filesystem: an association list from paths to nodes. -/
abbrev FS := List (Path × Node)

/-- `os.Lstat`: the node stored at `p`, if any (first binding wins). -/
def lstat (fs : FS) (p : Path) : Option Node :=
  match fs with
  | [] => none
  | e :: rest => if e.fst = p then some e.snd else lstat rest p

/-- Drop every binding for path `p`. -/
def eraseAll (fs : FS) (p : Path) : FS :=
  match fs with
  | [] => []
  | e :: rest => if e.fst = p then eraseAll rest p else e :: eraseAll rest p

/-- Overwrite (or add) the binding of `p` to node `n`. -/
def setNode (fs : FS) (p : Path) (n : Node) : FS :=
  (p, n) :: eraseAll fs p

/-- Auxiliary for `mkdirAll`, recursing on the reversed path so that the
recursion is structural.  Mirrors `os.MkdirAll`: if the path already exists
as a directory nothing happens; an existing non-directory is an error;
otherwise the parent is created recursively and then the directory itself. -/
def mkdirAllRev (fs : FS) (rp : Path) : Option FS :=
  match rp with
  | [] => some fs
  | h :: tail =>
    match lstat fs (h :: tail).reverse with
    | some Node.directory => some fs
    | some _ => none
    | none =>
      match mkdirAllRev fs tail with
      | none => none
      | some fs1 => some (setNode fs1 (h :: tail).reverse Node.directory)

/-- `os.MkdirAll(p, 0755)` (the mode plays no role in the claims). -/
def mkdirAll (fs : FS) (p : Path) : Option FS :=
  mkdirAllRev fs p.reverse

/-- `childName dir p = some n` exactly when `p = dir ++ [n]`, i.e. `p` is a
direct child of directory `dir` named `n`. -/
def childName (dir p : Path) : Option String :=
  match dir, p with
  | [], [n] => some n
  | d :: ds, q :: qs => if q = d then childName ds qs else none
  | _, _ => none

/-- Names bound directly under `dir` (with multiplicity, before dedup). -/
def childNames (fs : FS) (dir : Path) : List String :=
  fs.filterMap (fun e => childName dir e.fst)

/-- `filepath.Glob(dir ++ "/*")`: the paths directly under `dir`, without
duplicates and sorted by name, each returned as a full path.  The source
only ever globs patterns of the shape `<dir>/*`, and Go `*` also matches
names beginning with a dot, so a glob is determined by its directory. -/
def globStar (fs : FS) (dir : Path) : List Path :=
  (List.insertionSort (fun a b => a ≤ b) (childNames fs dir).dedup).map
    (fun n => dir ++ [n])

/-- `filepath.Base`: the final component of a path. -/
def base (p : Path) : String := p.getLastD ""

/-- `filepath.Join(targetDir, suffix+filepath.Base(file))` — line 80 of the
source, shared by the Install and the Remove arms of the switch. -/
def targetPath (targetDir : Path) (suffix : String) (file : Path) : Path :=
  targetDir ++ [suffix ++ base file]

/-- Whether `dir` has at least one entry directly beneath it. -/
def hasChild (fs : FS) (dir : Path) : Bool :=
  fs.any (fun e => (childName dir e.fst).isSome)

/-- `os.Remove`: fails when the path does not exist, is a non-empty
directory, or its metadata is unreadable; otherwise unlinks it (a symlink
is removed without being followed). -/
def osRemove (fs : FS) (p : Path) : Option FS :=
  match lstat fs p with
  | none => none
  | some Node.directory => if hasChild fs p then none else some (eraseAll fs p)
  | some Node.badMeta => none
  | some _ => some (eraseAll fs p)

/-- `os.Create`: truncating create.  Succeeds on a fresh path or an existing
regular file; an existing directory, symlink, device or unreadable entry is
an error.  (The parent directory exists at every call site because `helper`
runs `MkdirAll` on the target directory first, so the model does not check
it.) -/
def osCreate (fs : FS) (p : Path) (c : String) : Option FS :=
  match lstat fs p with
  | none => some (setNode fs p (Node.regular c))
  | some (Node.regular _) => some (setNode fs p (Node.regular c))
  | some _ => none

/-- The `Install` constant of the source (`policyOp` is a Go `uint`). -/
def Install : Nat := 0

/-- The `Remove` constant of the source. -/
def Remove : Nat := 1

/-- `policyOp.String()` — the `String` method on the operation tag. -/
def policyOpString (op : Nat) : String :=
  if op = Remove then "Remove"
  else if op = Install then "Install"
  else "policyOp(" ++ toString op ++ ")"

/-- One constructor per `fmt.Errorf` site of `policy.go`, in source order,
carrying the values the format string interpolates.  `globErr`, `openErr`,
`closeSourceErr`, `closeTargetErr`, `copyErr` and `syncErr` are unreachable
in the pure model (see the module comment) but kept for fidelity. -/
inductive PolicyError where
  | mkdirErr (targetDir : Path)
  | globErr (glob : Path)
  | statErr (file : Path)
  | notRegularFile (op : Nat) (file : Path)
  | removeErr (targetFile : Path)
  | openErr (file : Path)
  | closeSourceErr (file : Path)
  | createErr (targetFile : Path)
  | closeTargetErr (targetFile : Path)
  | copyErr (file targetFile : Path)
  | syncErr (targetFile : Path)
  | unknownOperation (op : Nat)
deriving DecidableEq, Repr

/-- The body of the `for _, file := range files` loop of `helper`
(lines 72–115): stat the globbed file, require it to be regular, compute the
target path, then dispatch on the operation — `Remove` unlinks the target,
`Install` copies the source over it (open, create, copy, sync and the
deferred closes cannot fail in the pure model), and any other tag is
`unknown operation`.  Returns the world after the iteration and the error,
if any. -/
def processOne (op : Nat) (fs : FS) (file targetDir : Path) (suffix : String) :
    FS × Option PolicyError :=
  match lstat fs file with
  | none => (fs, some (PolicyError.statErr file))
  | some Node.badMeta => (fs, some (PolicyError.statErr file))
  | some (Node.regular c) =>
    let targetFile := targetPath targetDir suffix file
    if op = Remove then
      match osRemove fs targetFile with
      | none => (fs, some (PolicyError.removeErr targetFile))
      | some fs2 => (fs2, none)
    else if op = Install then
      match osCreate fs targetFile c with
      | none => (fs, some (PolicyError.createErr targetFile))
      | some fs2 => (fs2, none)
    else (fs, some (PolicyError.unknownOperation op))
  | some _ => (fs, some (PolicyError.notRegularFile op file))

/-- The loop of `helper`: process the glob matches in order, stopping at the
first error and returning the world reached at that point. -/
def helperFiles (op : Nat) (fs : FS) (files : List Path) (targetDir : Path)
    (suffix : String) : FS × Option PolicyError :=
  match files with
  | [] => (fs, none)
  | f :: rest =>
    match processOne op fs f targetDir suffix with
    | (fs2, some e) => (fs2, some e)
    | (fs2, none) => helperFiles op fs2 rest targetDir suffix

/-- `helper` (lines 61–117): make the target directory, glob the sources
(the glob argument is the directory whose `/*` pattern the source passes),
then run the loop. -/
def helper (op : Nat) (fs : FS) (globDir targetDir : Path) (suffix : String) :
    FS × Option PolicyError :=
  match mkdirAll fs targetDir with
  | none => (fs, some (PolicyError.mkdirErr targetDir))
  | some fs1 => helperFiles op fs1 (globStar fs1 globDir) targetDir suffix

/-- `secbase`, the shared policy root `/var/lib/snappy`. -/
def secbase : Path := ["var", "lib", "snappy"]

/-- The inner `for _, j := range ...` loop of `FrameworkOp` for a fixed
category `i`, over the remaining subcategories `subs`. -/
def helperRow (op : Nat) (pkg : String) (pol : Path) (i : String)
    (subs : List String) (fs : FS) : FS × Option PolicyError :=
  match subs with
  | [] => (fs, none)
  | j :: js =>
    match helper op fs (pol ++ [i, j]) (secbase ++ [i, j]) (pkg ++ "_") with
    | (fs2, some e) => (fs2, some e)
    | (fs2, none) => helperRow op pkg pol i js fs2

/-- The outer `for _, i := range ...` loop of `FrameworkOp`, over the
remaining categories `cats`; each category runs the fixed subcategory list
`["policygroups", "templates"]`. -/
def helperRows (op : Nat) (pkg : String) (pol : Path) (cats : List String)
    (fs : FS) : FS × Option PolicyError :=
  match cats with
  | [] => (fs, none)
  | i :: is =>
    match helperRow op pkg pol i ["policygroups", "templates"] fs with
    | (fs2, some e) => (fs2, some e)
    | (fs2, none) => helperRows op pkg pol is fs2

/-- `FrameworkOp` (lines 121–131): run `helper` over the 2×2 cross-product
of categories and subcategories, fail-fast. -/
def FrameworkOp (op : Nat) (pkgName : String) (instPath : Path) (fs : FS) :
    FS × Option PolicyError :=
  helperRows op pkgName (instPath ++ ["meta", "framework-policy"])
    ["apparmor", "seccomp"] fs

/-! ### Basic lemmas about the filesystem model -/

theorem lstat_ne_none {fs : FS} {p : Path} :
    lstat fs p ≠ none ↔ ∃ e ∈ fs, e.fst = p := by
  induction fs with
  | nil => simp [lstat]
  | cons e rest ih =>
    by_cases h : e.fst = p
    · simp [lstat, h]
    · simp [lstat, h, ih]

theorem lstat_eraseAll (fs : FS) (p q : Path) :
    lstat (eraseAll fs p) q = if q = p then none else lstat fs q := by
  induction fs with
  | nil => simp [eraseAll, lstat]
  | cons e rest ih =>
    by_cases hep : e.fst = p
    · rw [eraseAll, if_pos hep, ih]
      by_cases hq : q = p
      · simp [hq]
      · have : e.fst ≠ q := by rw [hep]; exact fun h => hq h.symm
        simp [hq, lstat, this]
    · rw [eraseAll, if_neg hep]
      by_cases heq : e.fst = q
      · have hq : q ≠ p := by rw [← heq]; exact hep
        simp [lstat, heq, hq]
      · simp [lstat, heq, ih]

theorem lstat_setNode (fs : FS) (p q : Path) (n : Node) :
    lstat (setNode fs p n) q = if q = p then some n else lstat fs q := by
  rw [setNode]
  by_cases h : q = p
  · simp [lstat, h]
  · have : p ≠ q := fun hpq => h hpq.symm
    simp [lstat, this, lstat_eraseAll, h]

theorem mkdirAll_of_directory {fs : FS} {p : Path}
    (h : lstat fs p = some Node.directory) : mkdirAll fs p = some fs := by
  rw [mkdirAll]
  cases hp : p.reverse with
  | nil => rfl
  | cons h0 t =>
    have hrev : (h0 :: t).reverse = p := by rw [← hp, List.reverse_reverse]
    rw [mkdirAllRev, hrev, h]

theorem mkdirAll_nil (fs : FS) : mkdirAll fs [] = some fs := rfl

theorem childName_eq_some {dir p : Path} {n : String} :
    childName dir p = some n ↔ p = dir ++ [n] := by
  induction dir generalizing p with
  | nil =>
    cases p with
    | nil => simp [childName]
    | cons q qs =>
      cases qs with
      | nil => simp [childName]
      | cons q2 qs2 => simp [childName]
  | cons d ds ih =>
    cases p with
    | nil => simp [childName]
    | cons q qs =>
      by_cases h : q = d
      · simp [childName, h, ih]
      · simp [childName, h]

theorem mem_childNames {fs : FS} {dir : Path} {n : String} :
    n ∈ childNames fs dir ↔ lstat fs (dir ++ [n]) ≠ none := by
  rw [childNames, List.mem_filterMap, lstat_ne_none]
  constructor
  · rintro ⟨e, he, hcn⟩
    exact ⟨e, he, childName_eq_some.mp hcn⟩
  · rintro ⟨e, he, hfst⟩
    exact ⟨e, he, childName_eq_some.mpr hfst⟩

theorem mem_globStar {fs : FS} {dir q : Path} :
    q ∈ globStar fs dir ↔ ∃ n, q = dir ++ [n] ∧ lstat fs (dir ++ [n]) ≠ none := by
  rw [globStar, List.mem_map]
  constructor
  · rintro ⟨n, hn, rfl⟩
    rw [(List.perm_insertionSort _ _).mem_iff, List.mem_dedup, mem_childNames] at hn
    exact ⟨n, rfl, hn⟩
  · rintro ⟨n, rfl, hn⟩
    refine ⟨n, ?_, rfl⟩
    rw [(List.perm_insertionSort _ _).mem_iff, List.mem_dedup, mem_childNames]
    exact hn

theorem concat_inj {a b : Path} {x y : String} (h : a ++ [x] = b ++ [y]) :
    a = b ∧ x = y := by
  have hl : a.length = b.length := by
    have h2 := congrArg List.length h
    simp at h2
    exact h2
  have h3 := List.append_inj h hl
  refine ⟨h3.1, ?_⟩
  have := h3.2
  simp at this
  exact this

theorem nodup_globStar (fs : FS) (dir : Path) : (globStar fs dir).Nodup := by
  apply List.Nodup.map
  · intro a b hab
    exact (concat_inj hab).2
  · exact ((List.perm_insertionSort _ _).nodup_iff).mpr (List.nodup_dedup _)

theorem globStar_ext {fs1 fs2 : FS} {dir : Path}
    (h : ∀ n, lstat fs1 (dir ++ [n]) = none ↔ lstat fs2 (dir ++ [n]) = none) :
    globStar fs1 dir = globStar fs2 dir := by
  rw [globStar, globStar]
  congr 1
  apply List.eq_of_perm_of_sorted (r := fun a b => a ≤ b)
  · rw [List.perm_ext_iff_of_nodup
      (((List.perm_insertionSort _ _).nodup_iff).mpr (List.nodup_dedup _))
      (((List.perm_insertionSort _ _).nodup_iff).mpr (List.nodup_dedup _))]
    intro n
    rw [(List.perm_insertionSort _ _).mem_iff, (List.perm_insertionSort _ _).mem_iff,
      List.mem_dedup, List.mem_dedup, mem_childNames, mem_childNames]
    exact not_iff_not.mpr (h n)
  · exact List.sorted_insertionSort _ _
  · exact List.sorted_insertionSort _ _

theorem str_append_cancel_right {a b c : String} (h : a ++ c = b ++ c) : a = b := by
  apply String.ext
  have hd : a.data ++ c.data = b.data ++ c.data := by
    rw [← String.data_append, ← String.data_append, h]
  exact List.append_cancel_right hd

theorem str_append_cancel_left {s a b : String} (h : s ++ a = s ++ b) : a = b := by
  apply String.ext
  have hd : s.data ++ a.data = s.data ++ b.data := by
    rw [← String.data_append, ← String.data_append, h]
  exact List.append_cancel_left hd

/-! ### The sequential loop: composition and effect lemmas -/

theorem helperFiles_append_ok {op : Nat} {fs fsk : FS} {files1 : List Path}
    {targetDir : Path} {suffix : String}
    (h1 : helperFiles op fs files1 targetDir suffix = (fsk, none))
    (files2 : List Path) :
    helperFiles op fs (files1 ++ files2) targetDir suffix =
      helperFiles op fsk files2 targetDir suffix := by
  induction files1 generalizing fs with
  | nil =>
    simp only [helperFiles, Prod.mk.injEq] at h1
    rw [List.nil_append, h1.1]
  | cons f rest ih =>
    rw [List.cons_append]
    simp only [helperFiles] at h1 ⊢
    rcases hp : processOne op fs f targetDir suffix with ⟨fs2, e⟩
    rw [hp] at h1
    cases e with
    | some e0 =>
      have h2 : (fs2, some e0) = (fsk, (none : Option PolicyError)) := h1
      simp at h2
    | none =>
      have h2 : helperFiles op fs2 rest targetDir suffix = (fsk, none) := h1
      show helperFiles op fs2 (rest ++ files2) targetDir suffix = _
      exact ih h2

/-- Effect of a successful Install pass over a list of regular source files
whose targets are all fresh: it succeeds, leaves every non-target path
alone, and binds each target to the content of its source. -/
theorem install_effect {fs : FS} {files : List Path} {targetDir : Path}
    {suffix : String}
    (hreg : ∀ f ∈ files, ∃ c, lstat fs f = some (Node.regular c))
    (hfresh : ∀ f ∈ files, lstat fs (targetPath targetDir suffix f) = none)
    (hdisj : ∀ f ∈ files, ∀ g ∈ files, targetPath targetDir suffix f ≠ g)
    (hinj : files.Pairwise
      (fun f g => targetPath targetDir suffix f ≠ targetPath targetDir suffix g)) :
    ∃ fs1, helperFiles Install fs files targetDir suffix = (fs1, none) ∧
      (∀ p, (∀ f ∈ files, p ≠ targetPath targetDir suffix f) →
        lstat fs1 p = lstat fs p) ∧
      (∀ f ∈ files, ∃ c, lstat fs f = some (Node.regular c) ∧
        lstat fs1 (targetPath targetDir suffix f) = some (Node.regular c)) := by
  induction files generalizing fs with
  | nil => exact ⟨fs, rfl, fun p _ => rfl, by simp⟩
  | cons f rest ih =>
    obtain ⟨c, hc⟩ := hreg f (by simp)
    have hfr : lstat fs (targetPath targetDir suffix f) = none := hfresh f (by simp)
    have hcons := List.pairwise_cons.mp hinj
    have hstep : processOne Install fs f targetDir suffix =
        (setNode fs (targetPath targetDir suffix f) (Node.regular c), none) := by
      simp [processOne, hc, Install, Remove, osCreate, hfr]
    have hlset : ∀ q, lstat (setNode fs (targetPath targetDir suffix f)
        (Node.regular c)) q =
        if q = targetPath targetDir suffix f then some (Node.regular c)
        else lstat fs q := fun q => lstat_setNode fs _ q _
    obtain ⟨fs1, hrun, hpres, htgts⟩ :=
      @ih (setNode fs (targetPath targetDir suffix f) (Node.regular c))
        (fun g hg => by
          obtain ⟨cg, hcg⟩ := hreg g (by simp [hg])
          refine ⟨cg, ?_⟩
          rw [hlset g, if_neg, hcg]
          have := hdisj f (by simp) g (by simp [hg])
          exact fun hq => this hq.symm)
        (fun g hg => by
          rw [hlset _, if_neg, hfresh g (by simp [hg])]
          have := hcons.1 g hg
          exact fun hq => this hq.symm)
        (fun g hg h2 h3 => hdisj g (by simp [hg]) h2 (by simp [h3]))
        hcons.2
    refine ⟨fs1, ?_, ?_, ?_⟩
    · rw [helperFiles, hstep]
      exact hrun
    · intro p hp
      rw [hpres p (fun g hg => hp g (by simp [hg])), hlset p,
        if_neg (hp f (by simp))]
    · intro g hg
      rcases List.mem_cons.mp hg with rfl | hg2
      · refine ⟨c, hc, ?_⟩
        rw [hpres _ (fun g2 hg2 => hcons.1 g2 hg2), hlset _, if_pos rfl]
      · obtain ⟨cg, hcg, hcg1⟩ := htgts g hg2
        refine ⟨cg, ?_, hcg1⟩
        rw [hlset g, if_neg] at hcg
        · exact hcg
        · have := hdisj f (by simp) g (by simp [hg2])
          exact fun hq => this hq.symm

/-- Effect of a successful Remove pass over a list of regular source files
whose targets are all present regular files: it succeeds, leaves every
non-target path alone, and unbinds each target. -/
theorem remove_effect {fs : FS} {files : List Path} {targetDir : Path}
    {suffix : String}
    (hreg : ∀ f ∈ files, ∃ c, lstat fs f = some (Node.regular c))
    (hpresent : ∀ f ∈ files, ∃ c,
      lstat fs (targetPath targetDir suffix f) = some (Node.regular c))
    (hdisj : ∀ f ∈ files, ∀ g ∈ files, targetPath targetDir suffix f ≠ g)
    (hinj : files.Pairwise
      (fun f g => targetPath targetDir suffix f ≠ targetPath targetDir suffix g)) :
    ∃ fs2, helperFiles Remove fs files targetDir suffix = (fs2, none) ∧
      (∀ p, (∀ f ∈ files, p ≠ targetPath targetDir suffix f) →
        lstat fs2 p = lstat fs p) ∧
      (∀ f ∈ files, lstat fs2 (targetPath targetDir suffix f) = none) := by
  induction files generalizing fs with
  | nil => exact ⟨fs, rfl, fun p _ => rfl, by simp⟩
  | cons f rest ih =>
    obtain ⟨c, hc⟩ := hreg f (by simp)
    obtain ⟨ct, hct⟩ := hpresent f (by simp)
    have hcons := List.pairwise_cons.mp hinj
    have hstep : processOne Remove fs f targetDir suffix =
        (eraseAll fs (targetPath targetDir suffix f), none) := by
      simp [processOne, hc, Remove, osRemove, hct]
    have hlera : ∀ q, lstat (eraseAll fs (targetPath targetDir suffix f)) q =
        if q = targetPath targetDir suffix f then none else lstat fs q :=
      fun q => lstat_eraseAll fs _ q
    obtain ⟨fs2, hrun, hpres, htgts⟩ :=
      @ih (eraseAll fs (targetPath targetDir suffix f))
        (fun g hg => by
          obtain ⟨cg, hcg⟩ := hreg g (by simp [hg])
          refine ⟨cg, ?_⟩
          rw [hlera g, if_neg, hcg]
          have := hdisj f (by simp) g (by simp [hg])
          exact fun hq => this hq.symm)
        (fun g hg => by
          obtain ⟨cg, hcg⟩ := hpresent g (by simp [hg])
          refine ⟨cg, ?_⟩
          rw [hlera _, if_neg, hcg]
          have := hcons.1 g hg
          exact fun hq => this hq.symm)
        (fun g hg h2 h3 => hdisj g (by simp [hg]) h2 (by simp [h3]))
        hcons.2
    refine ⟨fs2, ?_, ?_, ?_⟩
    · rw [helperFiles, hstep]
      exact hrun
    · intro p hp
      rw [hpres p (fun g hg => hp g (by simp [hg])), hlera p,
        if_neg (hp f (by simp))]
    · intro g hg
      rcases List.mem_cons.mp hg with rfl | hg2
      · rw [hpres _ (fun g2 hg2 => hcons.1 g2 hg2), hlera _, if_pos rfl]
      · exact htgts g hg2

theorem ne_append_singleton (a : Path) (x : String) : a ≠ a ++ [x] := by
  intro h
  have h2 := congrArg List.length h
  simp at h2

/-! ### Claim theorems -/

/-- C3: for every (package-name, category, subcategory, source-basename)
tuple, the target path — computed once, by `targetPath`, before the
operation switch, hence identical for Install and Remove — is
`<shared-policy-root>/<category>/<subcategory>/<package-name>_<basename>`. -/
theorem c3_install_remove_same_target (pkg cat sub : String) (dir : Path)
    (b : String) :
    targetPath (secbase ++ [cat, sub]) (pkg ++ "_") (dir ++ [b]) =
      ["var", "lib", "snappy", cat, sub, pkg ++ "_" ++ b] := by
  simp [targetPath, base, secbase, List.getLastD_concat, String.append_assoc]

/-- C10: the target-name mapping is not injective: the distinct
(packageName, basename) pairs ("a_b", "c") and ("a", "b_c") produce the
same target path, because the package name may itself contain an
underscore. -/
theorem c10_target_name_collision :
    targetPath ["t"] ("a_b" ++ "_") ["s", "c"] =
      targetPath ["t"] ("a" ++ "_") ["s2", "b_c"] ∧
    (("a_b" : String), ("c" : String)) ≠ (("a" : String), ("b_c" : String)) := by
  constructor
  · decide
  · decide

/-- C2: when the glob finds a regular source file whose computed target
does not exist, Remove fails with the remove error naming that target
path; it is not treated as success. -/
theorem c2_remove_missing_target {fs fs1 : FS} {globDir targetDir : Path}
    {suffix : String} {file : Path} {c : String}
    (hmk : mkdirAll fs targetDir = some fs1)
    (hglob : globStar fs1 globDir = [file])
    (hreg : lstat fs1 file = some (Node.regular c))
    (hmiss : lstat fs1 (targetPath targetDir suffix file) = none) :
    helper Remove fs globDir targetDir suffix =
      (fs1, some (PolicyError.removeErr (targetPath targetDir suffix file))) := by
  simp only [helper, hmk, hglob, helperFiles]
  have hstep : processOne Remove fs1 file targetDir suffix =
      (fs1, some (PolicyError.removeErr (targetPath targetDir suffix file))) := by
    simp [processOne, hreg, Remove, osRemove, hmiss]
  rw [hstep]

theorem c2_remove_missing_target_witness :
    helper Remove [(["s"], Node.directory), (["s", "f"], Node.regular "x")]
        ["s"] ["t"] "p_" =
      ((["t"], Node.directory) ::
          [(["s"], Node.directory), (["s", "f"], Node.regular "x")],
        some (PolicyError.removeErr (targetPath ["t"] "p_" ["s", "f"]))) :=
  @c2_remove_missing_target
    [(["s"], Node.directory), (["s", "f"], Node.regular "x")]
    ((["t"], Node.directory) ::
      [(["s"], Node.directory), (["s", "f"], Node.regular "x")])
    ["s"] ["t"] "p_" ["s", "f"] "x"
    (by decide) (by decide) (by decide) (by decide)

/-- C6 (amended): a glob with an empty match set yields zero entries and no
error, provided target-directory creation succeeds; the filesystem after
the call is exactly the one produced by `MkdirAll`, so if the target
directory already exists nothing at all changes. -/
theorem c6_empty_glob {op : Nat} {fs fs1 : FS} {globDir targetDir : Path}
    {suffix : String}
    (hmk : mkdirAll fs targetDir = some fs1)
    (hglob : globStar fs1 globDir = []) :
    helper op fs globDir targetDir suffix = (fs1, none) ∧
      (lstat fs targetDir = some Node.directory → fs1 = fs) := by
  constructor
  · simp only [helper, hmk, hglob, helperFiles]
  · intro hdir
    have h2 := mkdirAll_of_directory hdir
    rw [hmk] at h2
    exact Option.some.inj h2

theorem c6_empty_glob_witness :
    helper Install [(["t"], Node.directory)] ["g"] ["t"] "p_" =
        ([(["t"], Node.directory)], none) ∧
      (lstat [(["t"], Node.directory)] ["t"] = some Node.directory →
        [(["t"], Node.directory)] = [(["t"], Node.directory)]) :=
  c6_empty_glob (by decide) (by decide)

/-- C6 counterexample: on the empty filesystem, a glob with zero matches
returns no error, yet the filesystem has changed — `MkdirAll` created the
target directory before the matches were consulted. -/
theorem c6_counterexample :
    globStar [(["t"], Node.directory)] ["g"] = [] ∧
    helper Install [] ["g"] ["t"] "p_" = ([(["t"], Node.directory)], none) ∧
    ([(["t"], Node.directory)] : FS) ≠ [] := by
  refine ⟨by decide, by decide, by decide⟩

/-- C4: the loop over the glob matches is strictly sequential and stops at
the first error: if a prefix of the matches succeeds, reaching state
`fsk`, and the next match fails with error `e`, the whole loop returns
exactly `e` and the state reached at the failure — whatever matches come
afterwards, their targets are untouched. -/
theorem c4_first_error_wins {op : Nat} {fs fsk fsf : FS} {files1 : List Path}
    {f : Path} {files2 : List Path} {targetDir : Path} {suffix : String}
    {e : PolicyError}
    (h1 : helperFiles op fs files1 targetDir suffix = (fsk, none))
    (h2 : processOne op fsk f targetDir suffix = (fsf, some e)) :
    helperFiles op fs (files1 ++ f :: files2) targetDir suffix = (fsf, some e) := by
  rw [helperFiles_append_ok h1, helperFiles, h2]

theorem c4_first_error_wins_witness :
    helperFiles Remove [(["s", "a"], Node.regular "x")]
        ([] ++ ["s", "a"] :: [["s", "zzz"]]) ["t"] "p_" =
      ([(["s", "a"], Node.regular "x")],
        some (PolicyError.removeErr ["t", "p_a"])) :=
  @c4_first_error_wins Remove [(["s", "a"], Node.regular "x")]
    [(["s", "a"], Node.regular "x")] [(["s", "a"], Node.regular "x")]
    [] ["s", "a"] [["s", "zzz"]] ["t"] "p_"
    (PolicyError.removeErr ["t", "p_a"]) (by decide) (by decide)

/-- C7: if the first not-yet-processed glob match is not a plain regular
file under `Lstat` classification, the operation fails identifying that
path and the operation; when the metadata of the match cannot be read at
all, it fails with the stat error instead. -/
theorem c7_not_regular_or_stat {op : Nat} {fs fs1 fsk : FS}
    {globDir targetDir : Path} {suffix : String} {files1 : List Path}
    {s : Path} {rest : List Path} {n : Node}
    (hmk : mkdirAll fs targetDir = some fs1)
    (hglob : globStar fs1 globDir = files1 ++ s :: rest)
    (hpre : helperFiles op fs1 files1 targetDir suffix = (fsk, none))
    (hn : lstat fsk s = some n)
    (hnreg : n.isRegular = false) :
    helper op fs globDir targetDir suffix =
      (fsk, some (if n = Node.badMeta then PolicyError.statErr s
        else PolicyError.notRegularFile op s)) := by
  simp only [helper, hmk, hglob]
  rw [helperFiles_append_ok hpre, helperFiles]
  have hstep : processOne op fsk s targetDir suffix =
      (fsk, some (if n = Node.badMeta then PolicyError.statErr s
        else PolicyError.notRegularFile op s)) := by
    cases n with
    | regular c => simp [Node.isRegular] at hnreg
    | directory => simp [processOne, hn]
    | symlink t => simp [processOne, hn]
    | device => simp [processOne, hn]
    | badMeta => simp [processOne, hn]
  rw [hstep]

theorem c7_not_regular_or_stat_witness :
    helper Install [(["s"], Node.directory), (["s", "d"], Node.directory)]
        ["s"] ["t"] "p_" =
      ((["t"], Node.directory) ::
          [(["s"], Node.directory), (["s", "d"], Node.directory)],
        some (if Node.directory = Node.badMeta then PolicyError.statErr ["s", "d"]
          else PolicyError.notRegularFile Install ["s", "d"])) :=
  @c7_not_regular_or_stat Install
    [(["s"], Node.directory), (["s", "d"], Node.directory)]
    ((["t"], Node.directory) ::
      [(["s"], Node.directory), (["s", "d"], Node.directory)])
    ((["t"], Node.directory) ::
      [(["s"], Node.directory), (["s", "d"], Node.directory)])
    ["s"] ["t"] "p_" [] ["s", "d"] [] Node.directory
    (by decide) (by decide) (by decide) (by decide) (by decide)

/-- C5: the batch driver is exactly the fail-fast sequence of four
Sync-Operator invocations over the cross-product
apparmor × seccomp (outer) by policygroups × templates (inner), each with
glob `<installPath>/meta/framework-policy/<cat>/<sub>/*`, target directory
`<SharedPolicyRoot>/<cat>/<sub>` and name prefix `<packageName>_`; the
first failing combination is returned and the remaining ones are not
attempted. -/
theorem c5_cross_product (op : Nat) (pkg : String) (inst : Path) (fs : FS) :
    FrameworkOp op pkg inst fs =
      (match helper op fs ((inst ++ ["meta", "framework-policy"]) ++
          ["apparmor", "policygroups"])
          (secbase ++ ["apparmor", "policygroups"]) (pkg ++ "_") with
       | (fs2, some e) => (fs2, some e)
       | (fs2, none) =>
         match helper op fs2 ((inst ++ ["meta", "framework-policy"]) ++
             ["apparmor", "templates"])
             (secbase ++ ["apparmor", "templates"]) (pkg ++ "_") with
         | (fs3, some e) => (fs3, some e)
         | (fs3, none) =>
           match helper op fs3 ((inst ++ ["meta", "framework-policy"]) ++
               ["seccomp", "policygroups"])
               (secbase ++ ["seccomp", "policygroups"]) (pkg ++ "_") with
           | (fs4, some e) => (fs4, some e)
           | (fs4, none) =>
             match helper op fs4 ((inst ++ ["meta", "framework-policy"]) ++
                 ["seccomp", "templates"])
                 (secbase ++ ["seccomp", "templates"]) (pkg ++ "_") with
             | (fs5, some e) => (fs5, some e)
             | (fs5, none) => (fs5, none)) := by
  rw [FrameworkOp]
  simp only [helperRows, helperRow]
  rcases h1 : helper op fs ((inst ++ ["meta", "framework-policy"]) ++
      ["apparmor", "policygroups"])
      (secbase ++ ["apparmor", "policygroups"]) (pkg ++ "_") with ⟨fs2, e1⟩
  cases e1 with
  | some e => rfl
  | none =>
    dsimp only
    rcases h2 : helper op fs2 ((inst ++ ["meta", "framework-policy"]) ++
        ["apparmor", "templates"])
        (secbase ++ ["apparmor", "templates"]) (pkg ++ "_") with ⟨fs3, e2⟩
    cases e2 with
    | some e => rfl
    | none =>
      dsimp only
      rcases h3 : helper op fs3 ((inst ++ ["meta", "framework-policy"]) ++
          ["seccomp", "policygroups"])
          (secbase ++ ["seccomp", "policygroups"]) (pkg ++ "_") with ⟨fs4, e3⟩
      cases e3 with
      | some e => rfl
      | none =>
        dsimp only
        rcases h4 : helper op fs4 ((inst ++ ["meta", "framework-policy"]) ++
            ["seccomp", "templates"])
            (secbase ++ ["seccomp", "templates"]) (pkg ++ "_") with ⟨fs5, e4⟩
        cases e4 with
        | some e => rfl
        | none => rfl

/-- C1 (amended): for an operation tag outside {Install, Remove}, when the
first glob of the batch (apparmor/policygroups) has at least one match and
that match is a regular file, the batch driver fails with the
unknown-operation error naming the tag; the state returned is the one
after target-directory creation, which is the only mutation performed. -/
theorem c1_unknown_operation {op : Nat} {fs fs1 : FS} {pkg : String}
    {inst : Path} {f : Path} {rest : List Path} {c : String}
    (hop1 : op ≠ Install) (hop2 : op ≠ Remove)
    (hmk : mkdirAll fs (secbase ++ ["apparmor", "policygroups"]) = some fs1)
    (hglob : globStar fs1 ((inst ++ ["meta", "framework-policy"]) ++
      ["apparmor", "policygroups"]) = f :: rest)
    (hreg : lstat fs1 f = some (Node.regular c)) :
    FrameworkOp op pkg inst fs = (fs1, some (PolicyError.unknownOperation op)) := by
  rw [FrameworkOp]
  simp only [helperRows, helperRow]
  have hh : helper op fs ((inst ++ ["meta", "framework-policy"]) ++
      ["apparmor", "policygroups"])
      (secbase ++ ["apparmor", "policygroups"]) (pkg ++ "_") =
      (fs1, some (PolicyError.unknownOperation op)) := by
    simp only [helper, hmk, hglob, helperFiles]
    have hstep : processOne op fs1 f (secbase ++ ["apparmor", "policygroups"])
        (pkg ++ "_") = (fs1, some (PolicyError.unknownOperation op)) := by
      simp [processOne, hreg, hop1, hop2]
    rw [hstep]
  rw [hh]

theorem c1_unknown_operation_witness :
    FrameworkOp 7 "p" ["i"]
        [(["var", "lib", "snappy", "apparmor", "policygroups"], Node.directory),
          (["i", "meta", "framework-policy", "apparmor", "policygroups", "f"],
            Node.regular "x")] =
      ([(["var", "lib", "snappy", "apparmor", "policygroups"], Node.directory),
          (["i", "meta", "framework-policy", "apparmor", "policygroups", "f"],
            Node.regular "x")],
        some (PolicyError.unknownOperation 7)) :=
  @c1_unknown_operation 7
    [(["var", "lib", "snappy", "apparmor", "policygroups"], Node.directory),
      (["i", "meta", "framework-policy", "apparmor", "policygroups", "f"],
        Node.regular "x")]
    [(["var", "lib", "snappy", "apparmor", "policygroups"], Node.directory),
      (["i", "meta", "framework-policy", "apparmor", "policygroups", "f"],
        Node.regular "x")]
    "p" ["i"]
    ["i", "meta", "framework-policy", "apparmor", "policygroups", "f"] [] "x"
    (by decide) (by decide) (by decide) (by decide) (by decide)

/-- C1 counterexample: on the empty filesystem every glob matches zero
files, so the per-file operation switch is never reached — the batch
driver with the out-of-range tag 7 returns success, not the
unknown-operation error, and it has mutated the filesystem (the target
directories were created). -/
theorem c1_counterexample :
    (FrameworkOp 7 "p" ["i"] []).2 = none ∧ (FrameworkOp 7 "p" ["i"] []).1 ≠ [] := by
  refine ⟨by decide, by decide⟩

/-- C8 (amended): provided the target directory already exists, the glob
directory differs from the target directory, every match is a regular file
and no computed target path exists beforehand, Install followed by Remove
with the same (glob, targetDir, prefix) restores the filesystem exactly:
afterwards every path reports the same lstat result as before. -/
theorem c8_roundtrip {fs : FS} {globDir targetDir : Path} {suffix : String}
    (hdir : lstat fs targetDir = some Node.directory)
    (hne : targetDir ≠ globDir)
    (hreg : ∀ f ∈ globStar fs globDir, ∃ c, lstat fs f = some (Node.regular c))
    (hfresh : ∀ f ∈ globStar fs globDir,
      lstat fs (targetPath targetDir suffix f) = none) :
    ∃ fs1 fs2, helper Install fs globDir targetDir suffix = (fs1, none) ∧
      helper Remove fs1 globDir targetDir suffix = (fs2, none) ∧
      ∀ p, lstat fs2 p = lstat fs p := by
  have hdisj : ∀ f ∈ globStar fs globDir, ∀ g ∈ globStar fs globDir,
      targetPath targetDir suffix f ≠ g := by
    intro f hf g hg heq
    obtain ⟨m, rfl, -⟩ := mem_globStar.mp hg
    exact hne (concat_inj heq).1
  have hinj : (globStar fs globDir).Pairwise
      (fun f g => targetPath targetDir suffix f ≠ targetPath targetDir suffix g) := by
    refine List.Pairwise.imp_of_mem ?_ (nodup_globStar fs globDir)
    intro f g hf hg hfg heq
    obtain ⟨n2, rfl, -⟩ := mem_globStar.mp hf
    obtain ⟨m2, rfl, -⟩ := mem_globStar.mp hg
    apply hfg
    simp only [targetPath, base, List.getLastD_concat] at heq
    have h3 : n2 = m2 := str_append_cancel_left (concat_inj heq).2
    rw [h3]
  obtain ⟨fs1, hrun1, hpres1, htgts1⟩ := install_effect hreg hfresh hdisj hinj
  have hInstall : helper Install fs globDir targetDir suffix = (fs1, none) := by
    simp only [helper, mkdirAll_of_directory hdir]
    exact hrun1
  have hchild_not_tgt : ∀ (n : String), ∀ f ∈ globStar fs globDir,
      globDir ++ [n] ≠ targetPath targetDir suffix f := by
    intro n f hf heq
    exact hne (concat_inj heq).1.symm
  have hdir1 : lstat fs1 targetDir = some Node.directory := by
    rw [hpres1 targetDir (fun f hf => ne_append_singleton targetDir _)]
    exact hdir
  have hg1 : globStar fs1 globDir = globStar fs globDir := by
    apply globStar_ext
    intro n
    rw [hpres1 (globDir ++ [n]) (fun f hf => hchild_not_tgt n f hf)]
  have hreg1 : ∀ f ∈ globStar fs globDir, ∃ c,
      lstat fs1 f = some (Node.regular c) := by
    intro f hf
    obtain ⟨c, hc⟩ := hreg f hf
    refine ⟨c, ?_⟩
    obtain ⟨n2, rfl, -⟩ := mem_globStar.mp hf
    rw [hpres1 _ (fun g hg => hchild_not_tgt n2 g hg)]
    exact hc
  have hpresent1 : ∀ f ∈ globStar fs globDir, ∃ c,
      lstat fs1 (targetPath targetDir suffix f) = some (Node.regular c) := by
    intro f hf
    obtain ⟨c, -, h2⟩ := htgts1 f hf
    exact ⟨c, h2⟩
  obtain ⟨fs2, hrun2, hpres2, htgts2⟩ :=
    remove_effect hreg1 hpresent1 hdisj hinj
  have hRemove : helper Remove fs1 globDir targetDir suffix = (fs2, none) := by
    simp only [helper, mkdirAll_of_directory hdir1, hg1]
    exact hrun2
  refine ⟨fs1, fs2, hInstall, hRemove, ?_⟩
  intro p
  by_cases hp : ∃ f ∈ globStar fs globDir, p = targetPath targetDir suffix f
  · obtain ⟨f, hf, rfl⟩ := hp
    rw [htgts2 f hf, hfresh f hf]
  · push_neg at hp
    rw [hpres2 p hp, hpres1 p hp]

theorem c8_roundtrip_witness :
    ∃ fs1 fs2,
      helper Install [(["t"], Node.directory), (["s"], Node.directory),
          (["s", "f"], Node.regular "x")] ["s"] ["t"] "p_" = (fs1, none) ∧
      helper Remove fs1 ["s"] ["t"] "p_" = (fs2, none) ∧
      ∀ p, lstat fs2 p =
        lstat [(["t"], Node.directory), (["s"], Node.directory),
          (["s", "f"], Node.regular "x")] p :=
  @c8_roundtrip [(["t"], Node.directory), (["s"], Node.directory),
      (["s", "f"], Node.regular "x")] ["s"] ["t"] "p_"
    (by decide) (by decide)
    (by
      have hgl : globStar [(["t"], Node.directory), (["s"], Node.directory),
          (["s", "f"], Node.regular "x")] ["s"] = [["s", "f"]] := by decide
      rw [hgl]
      intro f hf
      simp at hf
      subst hf
      exact ⟨"x", by decide⟩)
    (by
      have hgl : globStar [(["t"], Node.directory), (["s"], Node.directory),
          (["s", "f"], Node.regular "x")] ["s"] = [["s", "f"]] := by decide
      rw [hgl]
      intro f hf
      simp at hf
      subst hf
      decide)

/-- C8 counterexample: with a colliding target entry already present
(`t/p_f` holding "old"), Install overwrites it and Remove then deletes it,
so the round trip does not restore the pre-Install state: the entry that
existed before is gone afterwards, even though both operations reported
success. -/
theorem c8_counterexample :
    (helper Install [(["s"], Node.directory), (["s", "f"], Node.regular "new"),
        (["t"], Node.directory), (["t", "p_f"], Node.regular "old")]
        ["s"] ["t"] "p_").2 = none ∧
    (helper Remove (helper Install [(["s"], Node.directory),
        (["s", "f"], Node.regular "new"), (["t"], Node.directory),
        (["t", "p_f"], Node.regular "old")] ["s"] ["t"] "p_").1
        ["s"] ["t"] "p_").2 = none ∧
    lstat [(["s"], Node.directory), (["s", "f"], Node.regular "new"),
        (["t"], Node.directory), (["t", "p_f"], Node.regular "old")]
      ["t", "p_f"] = some (Node.regular "old") ∧
    lstat (helper Remove (helper Install [(["s"], Node.directory),
        (["s", "f"], Node.regular "new"), (["t"], Node.directory),
        (["t", "p_f"], Node.regular "old")] ["s"] ["t"] "p_").1
        ["s"] ["t"] "p_").1 ["t", "p_f"] = none := by
  refine ⟨by decide, by decide, by decide, by decide⟩

/-- C9: two distinct package names shipping a source file with the same
basename install to two distinct, non-colliding target files, and removing
the first package's installation leaves the second package's target file
untouched. -/
theorem c9_namespacing {fs : FS} {globDir targetDir : Path}
    {pkgA pkgB : String} {f : Path} {c : String}
    (hAB : pkgA ≠ pkgB)
    (hdir : lstat fs targetDir = some Node.directory)
    (hne : targetDir ≠ globDir)
    (hglob : globStar fs globDir = [f])
    (hreg : lstat fs f = some (Node.regular c))
    (hfa : lstat fs (targetPath targetDir (pkgA ++ "_") f) = none)
    (hfb : lstat fs (targetPath targetDir (pkgB ++ "_") f) = none) :
    targetPath targetDir (pkgA ++ "_") f ≠
      targetPath targetDir (pkgB ++ "_") f ∧
    ∃ fsA fsB fsC,
      helper Install fs globDir targetDir (pkgA ++ "_") = (fsA, none) ∧
      helper Install fsA globDir targetDir (pkgB ++ "_") = (fsB, none) ∧
      lstat fsB (targetPath targetDir (pkgA ++ "_") f) =
        some (Node.regular c) ∧
      lstat fsB (targetPath targetDir (pkgB ++ "_") f) =
        some (Node.regular c) ∧
      helper Remove fsB globDir targetDir (pkgA ++ "_") = (fsC, none) ∧
      lstat fsC (targetPath targetDir (pkgB ++ "_") f) =
        some (Node.regular c) ∧
      lstat fsC (targetPath targetDir (pkgA ++ "_") f) = none := by
  have hf_mem : f ∈ globStar fs globDir := by rw [hglob]; simp
  obtain ⟨n, hfn, -⟩ := mem_globStar.mp hf_mem
  have hTAB : targetPath targetDir (pkgA ++ "_") f ≠
      targetPath targetDir (pkgB ++ "_") f := by
    intro heq
    simp only [targetPath] at heq
    have h2 := (concat_inj heq).2
    have h3 := str_append_cancel_right h2
    exact hAB (str_append_cancel_right h3)
  have hf_ne : ∀ (sfx : String), f ≠ targetPath targetDir sfx f := by
    intro sfx heq
    rw [hfn] at heq
    exact hne (concat_inj heq).1.symm
  have htd_ne : ∀ (sfx : String), targetDir ≠ targetPath targetDir sfx f :=
    fun sfx => ne_append_singleton targetDir _
  have hstepA : helper Install fs globDir targetDir (pkgA ++ "_") =
      (setNode fs (targetPath targetDir (pkgA ++ "_") f) (Node.regular c),
        none) := by
    simp only [helper, mkdirAll_of_directory hdir, hglob, helperFiles]
    have hp : processOne Install fs f targetDir (pkgA ++ "_") =
        (setNode fs (targetPath targetDir (pkgA ++ "_") f) (Node.regular c),
          none) := by
      simp [processOne, hreg, Install, Remove, osCreate, hfa]
    rw [hp]
  have hlA : ∀ q, lstat (setNode fs (targetPath targetDir (pkgA ++ "_") f)
      (Node.regular c)) q =
      if q = targetPath targetDir (pkgA ++ "_") f then some (Node.regular c)
      else lstat fs q := fun q => lstat_setNode fs _ q _
  have hdirA : lstat (setNode fs (targetPath targetDir (pkgA ++ "_") f)
      (Node.regular c)) targetDir = some Node.directory := by
    rw [hlA targetDir, if_neg (htd_ne _)]
    exact hdir
  have hchildA : ∀ (m : String), globDir ++ [m] ≠
      targetPath targetDir (pkgA ++ "_") f := by
    intro m heq
    exact hne (concat_inj heq).1.symm
  have hchildB : ∀ (m : String), globDir ++ [m] ≠
      targetPath targetDir (pkgB ++ "_") f := by
    intro m heq
    exact hne (concat_inj heq).1.symm
  have hglobA : globStar (setNode fs (targetPath targetDir (pkgA ++ "_") f)
      (Node.regular c)) globDir = [f] := by
    rw [← hglob]
    apply globStar_ext
    intro m
    rw [hlA (globDir ++ [m]), if_neg (hchildA m)]
  have hregA : lstat (setNode fs (targetPath targetDir (pkgA ++ "_") f)
      (Node.regular c)) f = some (Node.regular c) := by
    rw [hlA f, if_neg (hf_ne _)]
    exact hreg
  have hfbA : lstat (setNode fs (targetPath targetDir (pkgA ++ "_") f)
      (Node.regular c)) (targetPath targetDir (pkgB ++ "_") f) = none := by
    rw [hlA _, if_neg (Ne.symm hTAB)]
    exact hfb
  have hstepB : helper Install (setNode fs
      (targetPath targetDir (pkgA ++ "_") f) (Node.regular c))
      globDir targetDir (pkgB ++ "_") =
      (setNode (setNode fs (targetPath targetDir (pkgA ++ "_") f)
          (Node.regular c)) (targetPath targetDir (pkgB ++ "_") f)
          (Node.regular c), none) := by
    simp only [helper, mkdirAll_of_directory hdirA, hglobA, helperFiles]
    have hp : processOne Install (setNode fs
        (targetPath targetDir (pkgA ++ "_") f) (Node.regular c)) f targetDir
        (pkgB ++ "_") =
        (setNode (setNode fs (targetPath targetDir (pkgA ++ "_") f)
            (Node.regular c)) (targetPath targetDir (pkgB ++ "_") f)
            (Node.regular c), none) := by
      simp [processOne, hregA, Install, Remove, osCreate, hfbA]
    rw [hp]
  have hlB : ∀ q, lstat (setNode (setNode fs
      (targetPath targetDir (pkgA ++ "_") f) (Node.regular c))
      (targetPath targetDir (pkgB ++ "_") f) (Node.regular c)) q =
      if q = targetPath targetDir (pkgB ++ "_") f then some (Node.regular c)
      else lstat (setNode fs (targetPath targetDir (pkgA ++ "_") f)
        (Node.regular c)) q := fun q => lstat_setNode _ _ q _
  have hpresA : lstat (setNode (setNode fs
      (targetPath targetDir (pkgA ++ "_") f) (Node.regular c))
      (targetPath targetDir (pkgB ++ "_") f) (Node.regular c))
      (targetPath targetDir (pkgA ++ "_") f) = some (Node.regular c) := by
    rw [hlB _, if_neg hTAB, hlA _, if_pos rfl]
  have hpresB : lstat (setNode (setNode fs
      (targetPath targetDir (pkgA ++ "_") f) (Node.regular c))
      (targetPath targetDir (pkgB ++ "_") f) (Node.regular c))
      (targetPath targetDir (pkgB ++ "_") f) = some (Node.regular c) := by
    rw [hlB _, if_pos rfl]
  have hdirB : lstat (setNode (setNode fs
      (targetPath targetDir (pkgA ++ "_") f) (Node.regular c))
      (targetPath targetDir (pkgB ++ "_") f) (Node.regular c)) targetDir =
      some Node.directory := by
    rw [hlB targetDir, if_neg (htd_ne _)]
    exact hdirA
  have hglobB : globStar (setNode (setNode fs
      (targetPath targetDir (pkgA ++ "_") f) (Node.regular c))
      (targetPath targetDir (pkgB ++ "_") f) (Node.regular c)) globDir =
      [f] := by
    rw [← hglobA]
    apply globStar_ext
    intro m
    rw [hlB (globDir ++ [m]), if_neg (hchildB m)]
  have hregB : lstat (setNode (setNode fs
      (targetPath targetDir (pkgA ++ "_") f) (Node.regular c))
      (targetPath targetDir (pkgB ++ "_") f) (Node.regular c)) f =
      some (Node.regular c) := by
    rw [hlB f, if_neg (hf_ne _)]
    exact hregA
  have hstepC : helper Remove (setNode (setNode fs
      (targetPath targetDir (pkgA ++ "_") f) (Node.regular c))
      (targetPath targetDir (pkgB ++ "_") f) (Node.regular c))
      globDir targetDir (pkgA ++ "_") =
      (eraseAll (setNode (setNode fs (targetPath targetDir (pkgA ++ "_") f)
          (Node.regular c)) (targetPath targetDir (pkgB ++ "_") f)
          (Node.regular c)) (targetPath targetDir (pkgA ++ "_") f),
        none) := by
    simp only [helper, mkdirAll_of_directory hdirB, hglobB, helperFiles]
    have hp : processOne Remove (setNode (setNode fs
        (targetPath targetDir (pkgA ++ "_") f) (Node.regular c))
        (targetPath targetDir (pkgB ++ "_") f) (Node.regular c)) f targetDir
        (pkgA ++ "_") =
        (eraseAll (setNode (setNode fs (targetPath targetDir (pkgA ++ "_") f)
            (Node.regular c)) (targetPath targetDir (pkgB ++ "_") f)
            (Node.regular c)) (targetPath targetDir (pkgA ++ "_") f),
          none) := by
      simp [processOne, hregB, Remove, osRemove, hpresA]
    rw [hp]
  refine ⟨hTAB, _, _, _, hstepA, hstepB, hpresA, hpresB, hstepC, ?_, ?_⟩
  · rw [lstat_eraseAll, if_neg (Ne.symm hTAB)]
    exact hpresB
  · rw [lstat_eraseAll, if_pos rfl]

theorem c9_namespacing_witness :
    targetPath ["t"] ("A" ++ "_") ["s", "f"] ≠
      targetPath ["t"] ("B" ++ "_") ["s", "f"] ∧
    ∃ fsA fsB fsC,
      helper Install [(["t"], Node.directory), (["s"], Node.directory),
          (["s", "f"], Node.regular "x")] ["s"] ["t"] ("A" ++ "_") =
        (fsA, none) ∧
      helper Install fsA ["s"] ["t"] ("B" ++ "_") = (fsB, none) ∧
      lstat fsB (targetPath ["t"] ("A" ++ "_") ["s", "f"]) =
        some (Node.regular "x") ∧
      lstat fsB (targetPath ["t"] ("B" ++ "_") ["s", "f"]) =
        some (Node.regular "x") ∧
      helper Remove fsB ["s"] ["t"] ("A" ++ "_") = (fsC, none) ∧
      lstat fsC (targetPath ["t"] ("B" ++ "_") ["s", "f"]) =
        some (Node.regular "x") ∧
      lstat fsC (targetPath ["t"] ("A" ++ "_") ["s", "f"]) = none :=
  @c9_namespacing [(["t"], Node.directory), (["s"], Node.directory),
      (["s", "f"], Node.regular "x")] ["s"] ["t"] "A" "B" ["s", "f"] "x"
    (by decide) (by decide) (by decide) (by decide) (by decide)
    (by decide) (by decide)

end Policy
